import Mathlib

/-!
Shallow embedding of `custom_components/asana/sensor.py` (Asana task sensor).

Python strings are modelled as `List Char` (`Str`); Python dictionaries with
string keys are modelled as association lists that preserve insertion order,
with assignment overwriting an existing key in place (`dictInsert`) exactly as
CPython dictionaries do.  Fallible Python code (an uncaught exception) is
modelled with `Option`: `none` means the exception escapes to the caller.
The `datetime` library calls `today - timedelta(days=d)` / `today +
timedelta(days=d)` followed by `strftime` are abstracted as two explicit
function parameters `dateMinus datePlus : Nat → Str`.
-/

namespace Asana

/-- Python `str` as a list of characters (code points). -/
abbrev Str := List Char

/-! Module-level constants from the source. -/

def _ASANA_TIMEFRAME_COMPLETED : Str := "past".toList

def _ASANA_TIMEFRAME_NOT_COMPLETED : Str := "future".toList

def _ASANA_TIMEFRAMES : List Str :=
  [_ASANA_TIMEFRAME_COMPLETED, _ASANA_TIMEFRAME_NOT_COMPLETED]

def _ASANA_SENSOR_TYPE_COUNTER : Str := "counter".toList

def _ASANA_SENSOR_TYPE_LIST : Str := "list".toList

def _ASANA_SENSOR_TASK_TYPES : List Str :=
  [_ASANA_SENSOR_TYPE_COUNTER, _ASANA_SENSOR_TYPE_LIST]

def _ASANA_TASK_DATE_ALL : Str := "all".toList

/-- Python `<=` on strings: lexicographic comparison by code point. -/
def strLe : Str → Str → Bool
  | [], _ => true
  | _ :: _, [] => false
  | a :: as, b :: bs => if a = b then strLe as bs else decide (a.toNat < b.toNat)

/-- Python `startswith` on character lists: is `pat` an initial segment of `s`. -/
def strStarts : Str → Str → Bool
  | _, [] => true
  | [], _ :: _ => false
  | a :: as, b :: bs => a = b && strStarts as bs

/-- Python `pat in s`: substring containment. -/
def strContains (s pat : Str) : Bool :=
  match s with
  | [] => strStarts [] pat
  | _ :: rest => strStarts s pat || strContains rest pat

/-- Python `s.split(sep)` for a one-character separator. -/
def splitOnChar (sep : Char) : Str → List Str
  | [] => [[]]
  | c :: cs =>
    let rest := splitOnChar sep cs
    if c = sep then [] :: rest
    else
      match rest with
      | [] => [[c]]
      | h :: t => (c :: h) :: t

/-- Python truthiness of an optional string: `None` and the empty string are falsy. -/
def pyTruthy : Option Str → Bool
  | none => false
  | some s => !s.isEmpty

/-- Longest run of ASCII decimal digits at the head of the string, with the rest.
Models the greedy `[\d]+` of the regular expression (ASCII inputs). -/
def takeDigits : Str → Str × Str
  | [] => ([], [])
  | c :: cs =>
    if decide (48 ≤ c.toNat) && decide (c.toNat ≤ 57) then
      let p := takeDigits cs
      (c :: p.1, p.2)
    else ([], c :: cs)

/-- Python `int` on a string of decimal digits. -/
def digitsVal (ds : Str) : Nat :=
  ds.foldl (fun n c => 10 * n + (c.toNat - 48)) 0

/-- Attempt of the regex `(?:_)([\d]+)(?:day)` at the head of the string.
The digit class is greedy; backtracking it can never help because the literal
`d` that follows is not a digit, so the pattern matches here exactly when an
underscore is followed by a maximal non-empty digit run and then `day`. -/
def dayMatchHere (s : Str) : Option Nat :=
  match s with
  | '_' :: rest =>
    match takeDigits rest with
    | ([], _) => none
    | (ds, 'd' :: 'a' :: 'y' :: _) => some (digitsVal ds)
    | (_, _) => none
  | _ => none

/-- `re.search` of `(?:_)([\d]+)(?:day)`: leftmost match wins. -/
def searchDayPattern : Str → Option Nat
  | [] => none
  | c :: cs =>
    match dayMatchHere (c :: cs) with
    | some n => some n
    | none => searchDayPattern cs

/-- The `task_date` value a rule stores: the string sentinel `'all'` or an `int`. -/
inductive DateVal where
  | all : DateVal
  | days (n : Nat) : DateVal
deriving DecidableEq

/-- `AsanaTaskSensor._get_days_from_monitored_variable`. -/
def _get_days_from_monitored_variable (monitored_variable : Str) : Option DateVal :=
  if strContains monitored_variable _ASANA_TASK_DATE_ALL then some DateVal.all
  else
    match searchDayPattern monitored_variable with
    | none => none
    | some n => some (DateVal.days n)

/-- The per-rule dictionary built by `_process_monitored_variables`. -/
structure RuleConfig where
  name : Str
  sensor_type : Str
  timeframe : Str
  task_date : DateVal
deriving DecidableEq

/-- A Python dict with `Str` keys: insertion-ordered association list. -/
abbrev RuleMap := List (Str × RuleConfig)

/-- Python dict assignment `m[k] = v`: overwrite in place, or append a new key. -/
def dictInsert {β : Type} (m : List (Str × β)) (k : Str) (v : β) : List (Str × β) :=
  match m with
  | [] => [(k, v)]
  | (k0, v0) :: rest =>
    if k0 = k then (k, v) :: rest else (k0, v0) :: dictInsert rest k v

/-- Python dict lookup `m.get(k)`. -/
def alookup {β : Type} (k : Str) : List (Str × β) → Option β
  | [] => none
  | (k0, v) :: rest => if k0 = k then some v else alookup k rest

/-- Python `k in m` for a dict. -/
def containsKey {β : Type} (m : List (Str × β)) (k : Str) : Bool :=
  (alookup k m).isSome

/-- Loop body state of `_process_monitored_variables`: the dict built so far and
`self._state_attribute_name`.  Returns `none` when the tuple unpacking
`(variable_type, variable_timeframe, _) = variable_parts` raises `ValueError`
(the split does not yield exactly three parts), which no handler catches. -/
def processVarsGo : List Str → RuleMap → Option Str → Option (RuleMap × Option Str)
  | [], m, attr => some (m, attr)
  | v :: rest, m, attr =>
    let vl := v.map Char.toLower
    match splitOnChar '_' vl with
    | [variable_type, variable_timeframe, _] =>
      match _get_days_from_monitored_variable vl with
      | none => processVarsGo rest m attr
      | some variable_days =>
        if variable_type ∈ _ASANA_SENSOR_TASK_TYPES then
          if variable_timeframe ∈ _ASANA_TIMEFRAMES then
            let attr2 := match attr with
              | none => some vl
              | some a => some a
            processVarsGo rest
              (dictInsert m vl
                { name := vl, sensor_type := variable_type,
                  timeframe := variable_timeframe, task_date := variable_days })
              attr2
          else processVarsGo rest m attr
        else processVarsGo rest m attr
    | _ => none

/-- `AsanaTaskSensor._process_monitored_variables`, together with the
`self._state_attribute_name` it sets as a side effect. -/
def _process_monitored_variables (monitored_variables : List Str) :
    Option (RuleMap × Option Str) :=
  processVarsGo monitored_variables [] none

/-- `AsanaTaskSensor._get_max_since_days_ago`. -/
def _get_max_since_days_ago (monitored_variables : RuleMap) : Nat :=
  monitored_variables.foldl
    (fun max_days_ago p =>
      if p.2.timeframe = _ASANA_TIMEFRAME_NOT_COMPLETED then max_days_ago
      else
        match p.2.task_date with
        | DateVal.all => max_days_ago
        | DateVal.days days_ago => Nat.max days_ago max_days_ago)
    0

/-- `AsanaTaskSensor._task_day_matches_timeframe`.  String comparisons are
Python lexicographic order. -/
def _task_day_matches_timeframe (task_day variable_timeframe variable_date : Str) :
    Bool :=
  if variable_timeframe = _ASANA_TIMEFRAME_COMPLETED then
    if task_day = _ASANA_TASK_DATE_ALL then false
    else strLe variable_date task_day
  else if variable_timeframe = _ASANA_TIMEFRAME_NOT_COMPLETED then
    if variable_date = _ASANA_TASK_DATE_ALL then true
    else strLe task_day variable_date
  else false

/-- A fetched Asana task; only the consumed fields are modelled.  `none`
stands for an absent or `null` JSON field. -/
structure Task where
  name : Str
  completed : Bool
  completed_at : Option Str
  due_on : Option Str
deriving DecidableEq

/-- One timeframe bucket: date-key to ordered list of display strings. -/
abbrev Bucket := List (Str × List Str)

/-- `self._task_data`: timeframe key to bucket. -/
abbrev TaskData := List (Str × Bucket)

/-- Appending to `self._task_data[group][date]`, creating the empty list first
when the date key is missing (new keys go to the end, as in a Python dict). -/
def bucketAppend (b : Bucket) (k : Str) (v : Str) : Bucket :=
  match b with
  | [] => [(k, [v])]
  | (k0, vs) :: rest =>
    if k0 = k then (k0, vs ++ [v]) :: rest else (k0, vs) :: bucketAppend rest k v

/-- Update of the bucket stored under timeframe `g` (always present). -/
def tdAppend (td : TaskData) (g k v : Str) : TaskData :=
  td.map fun p => if p.1 = g then (p.1, bucketAppend p.2 k v) else p

/-- One iteration of the loop in `_store_task_data`. -/
def storeStep (td : TaskData) (task : Task) : TaskData :=
  let gd :=
    if task.completed then
      (_ASANA_TIMEFRAME_COMPLETED,
        if pyTruthy task.completed_at then (task.completed_at.getD []).take 10
        else _ASANA_TASK_DATE_ALL)
    else
      (_ASANA_TIMEFRAME_NOT_COMPLETED,
        if pyTruthy task.due_on then (task.due_on.getD []).take 10
        else _ASANA_TASK_DATE_ALL)
  let task_name :=
    if gd.2 = _ASANA_TASK_DATE_ALL then task.name
    else gd.2 ++ " - ".toList ++ task.name
  tdAppend td gd.1 gd.2 task_name

/-- `AsanaTaskSensor._store_task_data`: rebuilds `self._task_data` from scratch. -/
def _store_task_data (tasks_data : List Task) : TaskData :=
  tasks_data.foldl storeStep
    [(_ASANA_TIMEFRAME_COMPLETED, []), (_ASANA_TIMEFRAME_NOT_COMPLETED, [])]

/-- Stable insertion into a `strLe`-sorted list of keys. -/
def insertSorted (k : Str) : List Str → List Str
  | [] => [k]
  | x :: xs => if strLe k x then k :: x :: xs else x :: insertSorted k xs

/-- Python `sorted` on a list of strings (ascending lexicographic). -/
def sortStrs (l : List Str) : List Str := l.foldr insertSorted []

/-- Dict indexing `selected_tasks_data[task_day]` for a key taken from the dict. -/
def lookupD (b : Bucket) (k : Str) : List Str := (alookup k b).getD []

/-- The matching-task loop of `_update_sensor_attributes`: iterate the bucket
keys in sorted order and `extend` with each matching key's list. -/
def matchingTasks (selected : Bucket) (variable_timeframe variable_date : Str) :
    List Str :=
  (sortStrs (selected.map Prod.fst)).foldl
    (fun acc task_day =>
      if _task_day_matches_timeframe task_day variable_timeframe variable_date then
        acc ++ lookupD selected task_day
      else acc)
    []

/-- An attribute value: a task list for `list` rules, a count for `counter` rules. -/
inductive AttrValue where
  | vlist (l : List Str) : AttrValue
  | vcount (n : Nat) : AttrValue
deriving DecidableEq

/-- Per-rule body of the loop in `_update_sensor_attributes`: resolve the
boundary date and project the matching tasks to the rule's kind.  `dateMinus d`
stands for `(today - timedelta(days=d)).strftime('%Y-%m-%d')` and `datePlus d`
for the corresponding addition. -/
def variableValue (cfg : RuleConfig) (td : TaskData) (dateMinus datePlus : Nat → Str) :
    AttrValue :=
  let selected := (alookup cfg.timeframe td).getD []
  let variable_date :=
    match cfg.task_date with
    | DateVal.all => _ASANA_TASK_DATE_ALL
    | DateVal.days d =>
      if cfg.timeframe = _ASANA_TIMEFRAME_COMPLETED then dateMinus d else datePlus d
  let matching_task_list := matchingTasks selected cfg.timeframe variable_date
  if cfg.sensor_type = _ASANA_SENSOR_TYPE_LIST then AttrValue.vlist matching_task_list
  else AttrValue.vcount matching_task_list.length

/-- The scalar sensor state: the `'OK'` placeholder or a copied attribute value. -/
inductive StateValue where
  | ok : StateValue
  | fromAttr (v : Option AttrValue) : StateValue
deriving DecidableEq

/-- The mutable fields of `AsanaTaskSensor` that the claims are about. -/
structure Sensor where
  state_attribute_name : Option Str
  monitored_variables : RuleMap
  task_data : TaskData
  attributes : List (Str × Option AttrValue)
  state : Option StateValue
deriving DecidableEq

/-- `AsanaTaskSensor.__init__` (the API handle is modelled separately).
`none` when `_process_monitored_variables` raises. -/
def init (monitored_variables : List Str) : Option Sensor :=
  match _process_monitored_variables monitored_variables with
  | none => none
  | some (m, attr) =>
    some
      { state_attribute_name := attr
        monitored_variables := m
        task_data := []
        attributes := m.map (fun p => (p.1, none))
        state := none }

/-- `AsanaTaskSensor._update_sensor_attributes`: one dict assignment per rule. -/
def _update_sensor_attributes (s : Sensor) (dateMinus datePlus : Nat → Str) : Sensor :=
  s.monitored_variables.foldl
    (fun s2 p =>
      { s2 with
        attributes :=
          dictInsert s2.attributes p.1
            (some (variableValue p.2 s2.task_data dateMinus datePlus)) })
    s

/-- `AsanaTaskSensor._update_sensor_state`.  A falsy (unset or empty) state
attribute name yields the `'OK'` placeholder; otherwise the attribute value is
copied (the key is always present, having been written at construction). -/
def _update_sensor_state (s : Sensor) : Sensor :=
  { s with
    state :=
      some
        (match s.state_attribute_name with
          | some n =>
            if n.isEmpty then StateValue.ok
            else StateValue.fromAttr ((alookup n s.attributes).getD none)
          | none => StateValue.ok) }

/-- One JSON page response from the Asana API.  `data = none` models a body
that is empty or lacks the `'data'` field (the source's two abort conditions
coincide: an empty dict also lacks `'data'`).  `next_page` carries the next
page uri when present. -/
structure Resp where
  data : Option (List Task)
  next_page : Option Str
deriving DecidableEq

/-- The pagination loop of `AsanaTaskApi.get_api_data`, consuming the server's
responses in request order with the accumulated `tasks_data`.  An exhausted
response list while a page is still pending models a transport failure. -/
def fetchGo : List Resp → List Task → Option (List Task)
  | [], _ => none
  | r :: rs, acc =>
    match r.data with
    | none => none
    | some d =>
      let acc2 := acc ++ d
      match r.next_page with
      | none => some acc2
      | some _ => fetchGo rs acc2

/-- `AsanaTaskApi.get_api_data`. -/
def get_api_data (responses : List Resp) : Option (List Task) :=
  fetchGo responses []

/-- `AsanaTaskSensor.update`: abort on fetch failure, else rebuild buckets,
attributes, and state. -/
def update (s : Sensor) (fetched : Option (List Task)) (dateMinus datePlus : Nat → Str) :
    Sensor :=
  match fetched with
  | none => s
  | some tasks_data =>
    let s2 := { s with task_data := _store_task_data tasks_data }
    _update_sensor_state (_update_sensor_attributes s2 dateMinus datePlus)

/-! Derived predicates used in the claim statements. -/

/-- Acceptance of an already lower-cased variable name: it decomposes into
exactly three underscore-separated tokens with a recognised horizon, kind and
timeframe.  Mirrors the checks of `_process_monitored_variables`. -/
def acceptVar (v : Str) : Bool :=
  match splitOnChar '_' v with
  | [t, tf, _] =>
    (_get_days_from_monitored_variable v).isSome
      && decide (t ∈ _ASANA_SENSOR_TASK_TYPES)
      && decide (tf ∈ _ASANA_TIMEFRAMES)
  | _ => false

/-- The rule dictionary an accepted lower-cased name produces. -/
def ruleFor (v : Str) : RuleConfig :=
  match splitOnChar '_' v with
  | [t, tf, _] =>
    { name := v, sensor_type := t, timeframe := tf,
      task_date := (_get_days_from_monitored_variable v).getD DateVal.all }
  | _ => { name := v, sensor_type := [], timeframe := [], task_date := DateVal.all }

/-! Helper lemmas about the parser loop. -/

lemma splitThree (v : Str) (hv : (splitOnChar '_' v).length = 3) :
    ∃ x y z, splitOnChar '_' v = [x, y, z] := by
  rcases e : splitOnChar '_' v with _ | ⟨x, _ | ⟨y, _ | ⟨z, _ | ⟨w, l5⟩⟩⟩⟩ <;>
    rw [e] at hv <;> simp at hv
  exact ⟨x, y, z, rfl⟩

lemma processVarsGo_isSome (vars : List Str) :
    ∀ (m : RuleMap) (a : Option Str),
      (∀ v ∈ vars, (splitOnChar '_' (v.map Char.toLower)).length = 3) →
      (processVarsGo vars m a).isSome = true := by
  induction vars with
  | nil => intro m a _; simp [processVarsGo]
  | cons v rest ih =>
    intro m a h
    have hrest : ∀ w ∈ rest, (splitOnChar '_' (w.map Char.toLower)).length = 3 :=
      fun w hw => h w (List.mem_cons_of_mem v hw)
    obtain ⟨x, y, z, e⟩ := splitThree _ (h v (List.mem_cons_self v rest))
    simp only [processVarsGo, e]
    cases _get_days_from_monitored_variable (v.map Char.toLower) with
    | none => exact ih m a hrest
    | some d =>
      simp only
      split
      · split
        · exact ih _ _ hrest
        · exact ih _ _ hrest
      · exact ih _ _ hrest

lemma processVarsGo_filter (vars : List Str) :
    ∀ (m : RuleMap) (a : Option Str),
      (∀ v ∈ vars, (splitOnChar '_' (v.map Char.toLower)).length = 3) →
      processVarsGo vars m a
        = processVarsGo (vars.filter fun v => acceptVar (v.map Char.toLower)) m a := by
  induction vars with
  | nil => intro m a _; rfl
  | cons v rest ih =>
    intro m a h
    have hrest : ∀ w ∈ rest, (splitOnChar '_' (w.map Char.toLower)).length = 3 :=
      fun w hw => h w (List.mem_cons_of_mem v hw)
    obtain ⟨x, y, z, e⟩ := splitThree _ (h v (List.mem_cons_self v rest))
    by_cases ha : acceptVar (v.map Char.toLower) = true
    · have e2 : (v :: rest).filter (fun v => acceptVar (v.map Char.toLower))
          = v :: rest.filter (fun v => acceptVar (v.map Char.toLower)) := by
        simp [List.filter, ha]
      rw [e2]
      simp only [acceptVar, e, Bool.and_eq_true, decide_eq_true_eq,
        Option.isSome_iff_exists] at ha
      obtain ⟨⟨⟨d, hd⟩, ht⟩, htf⟩ := ha
      simp only [processVarsGo, e, hd, if_pos ht, if_pos htf]
      exact ih _ _ hrest
    · have e2 : (v :: rest).filter (fun v => acceptVar (v.map Char.toLower))
          = rest.filter (fun v => acceptVar (v.map Char.toLower)) := by
        simp [List.filter, ha]
      rw [e2]
      simp only [processVarsGo, e]
      cases hd : _get_days_from_monitored_variable (v.map Char.toLower) with
      | none => exact ih _ _ hrest
      | some d =>
        by_cases ht : x ∈ _ASANA_SENSOR_TASK_TYPES
        · by_cases htf : y ∈ _ASANA_TIMEFRAMES
          · exact absurd (by simp [acceptVar, e, hd, ht, htf]) ha
          · simp only [if_pos ht, if_neg htf]
            exact ih _ _ hrest
        · simp only [if_neg ht]
          exact ih _ _ hrest

/-- C1 (counterexample): on the list `["counterpast"]` the claim fails: the
name has no underscore, so the tuple unpacking in `_process_monitored_variables`
raises `ValueError`, which escapes to the caller (modelled as `none`) instead of
the name being dropped with a logged error. -/
theorem c1_counterexample :
    _process_monitored_variables ["counterpast".toList] = none := rfl

/-- C1 (amended): for every list of raw monitored-variable name strings in
which each name splits on underscore into exactly three tokens, rule parsing
completes normally and returns a rule set, and each invalid name (bad kind,
timeframe, or horizon) is dropped: the result is the same as parsing only the
accepted names.  A name whose underscore decomposition does not have exactly
three tokens instead raises an uncaught `ValueError`. -/
theorem c1_theorem (vars : List Str)
    (h : ∀ v ∈ vars, (splitOnChar '_' (v.map Char.toLower)).length = 3) :
    (_process_monitored_variables vars).isSome = true
    ∧ _process_monitored_variables vars
        = _process_monitored_variables
            (vars.filter fun v => acceptVar (v.map Char.toLower)) :=
  ⟨processVarsGo_isSome vars [] none h, processVarsGo_filter vars [] none h⟩

/-- C1 (witness): the amended theorem applied to a concrete list with one
valid and two invalid (but three-token) names. -/
theorem c1_witness :
    (_process_monitored_variables
        ["counter_past_7day".toList, "bogus_kind_3day".toList,
          "counter_nope_3day".toList]).isSome = true
    ∧ _process_monitored_variables
        ["counter_past_7day".toList, "bogus_kind_3day".toList,
          "counter_nope_3day".toList]
        = _process_monitored_variables
            ((["counter_past_7day".toList, "bogus_kind_3day".toList,
                "counter_nope_3day".toList]).filter
              fun v => acceptVar (v.map Char.toLower)) :=
  c1_theorem _ (by decide)

/-! Helper lemmas about rule evaluation. -/

lemma foldl_if_extend (q : Str → Bool) (f : Str → List Str) :
    ∀ (l : List Str) (acc : List Str),
      l.foldl (fun acc2 k => if q k then acc2 ++ f k else acc2) acc
        = acc ++ (l.filter q).flatMap f := by
  intro l
  induction l with
  | nil => intro acc; simp
  | cons x xs ih =>
    intro acc
    by_cases hq : q x = true
    · simp [List.foldl_cons, hq, ih, List.filter_cons]
    · simp [List.foldl_cons, hq, ih, List.filter_cons]

lemma matchingTasks_eq (selected : Bucket) (tf vd : Str) :
    matchingTasks selected tf vd
      = ((sortStrs (selected.map Prod.fst)).filter
          (fun k => _task_day_matches_timeframe k tf vd)).flatMap
            (lookupD selected) := by
  simpa [matchingTasks] using
    foldl_if_extend (fun k => _task_day_matches_timeframe k tf vd)
      (lookupD selected) (sortStrs (selected.map Prod.fst)) []

lemma mem_insertSorted (x k : Str) (l : List Str) :
    x ∈ insertSorted k l ↔ x = k ∨ x ∈ l := by
  induction l with
  | nil => simp [insertSorted]
  | cons y ys ih =>
    simp only [insertSorted]
    split
    · simp [List.mem_cons]
    · simp only [List.mem_cons, ih]
      tauto

lemma mem_sortStrs (x : Str) (l : List Str) : x ∈ sortStrs l ↔ x ∈ l := by
  induction l with
  | nil => simp [sortStrs]
  | cons y ys ih =>
    show x ∈ insertSorted y (sortStrs ys) ↔ _
    simp [mem_insertSorted, ih]

/-- A date key as produced by the bucketer: begins with an ASCII digit. -/
def startsWithDigit : Str → Bool
  | [] => false
  | c :: _ => decide (48 ≤ c.toNat) && decide (c.toNat ≤ 57)

lemma strLe_all_digit (c : Char) (cs : Str)
    (h2 : c.toNat ≤ 57) :
    strLe _ASANA_TASK_DATE_ALL (c :: cs) = false := by
  have h97 : ('a').toNat = 97 := by decide
  have hne : ¬ ('a' = c) := by
    intro h
    rw [← h, h97] at h2
    omega
  show strLe ('a' :: 'l' :: 'l' :: []) (c :: cs) = false
  simp only [strLe, if_neg hne, decide_eq_false_iff_not]
  omega

lemma match_past_all (k : Str)
    (hk : k = _ASANA_TASK_DATE_ALL ∨ startsWithDigit k = true) :
    _task_day_matches_timeframe k _ASANA_TIMEFRAME_COMPLETED
      _ASANA_TASK_DATE_ALL = false := by
  rcases hk with hk | hk
  · subst hk; decide
  · cases k with
    | nil => simp [startsWithDigit] at hk
    | cons c cs =>
      simp only [startsWithDigit, Bool.and_eq_true, decide_eq_true_eq] at hk
      have hne : ¬ (c :: cs = _ASANA_TASK_DATE_ALL) := by
        intro h
        have hc : c = 'a' := by
          have := congrArg (fun l => l.headD ' ') h
          simpa [_ASANA_TASK_DATE_ALL] using this
        rw [hc] at hk
        have : ('a').toNat = 97 := by decide
        omega
      simp only [_task_day_matches_timeframe, if_pos rfl, if_neg hne]
      exact strLe_all_digit c cs hk.2

lemma match_future_all (k : Str) :
    _task_day_matches_timeframe k _ASANA_TIMEFRAME_NOT_COMPLETED
      _ASANA_TASK_DATE_ALL = true := by
  have h : ¬ (_ASANA_TIMEFRAME_NOT_COMPLETED = _ASANA_TIMEFRAME_COMPLETED) := by decide
  simp [_task_day_matches_timeframe, h]

/-- C2 (counterexample): a `list` rule with timeframe `past` and horizon
`"all"` evaluates to the empty list even though the date key `2024-01-01` is
present in its timeframe bucket, because `'2024-01-01' >= 'all'` is false in
lexicographic string order; so not every date-key of the bucket is included. -/
theorem c2_counterexample :
    containsKey [("2024-01-01".toList, ["2024-01-01 - task".toList])]
        "2024-01-01".toList = true
    ∧ variableValue
        { name := "list_past_all".toList, sensor_type := _ASANA_SENSOR_TYPE_LIST,
          timeframe := _ASANA_TIMEFRAME_COMPLETED, task_date := DateVal.all }
        [(_ASANA_TIMEFRAME_COMPLETED,
            [("2024-01-01".toList, ["2024-01-01 - task".toList])]),
          (_ASANA_TIMEFRAME_NOT_COMPLETED, [])]
        (fun _ => []) (fun _ => [])
      = AttrValue.vlist [] := by
  exact ⟨by decide, by decide⟩

/-- C2 (amended): for a rule whose horizon is `"all"` the resolved boundary is
the sentinel `"all"`, and for a `future`-timeframe rule every date-key present
in its bucket is included in the result; but a `past`-timeframe rule with
horizon `"all"` includes no key at all: the `"all"` key is explicitly excluded
and every digit-initial date key sorts lexicographically below `"all"`. -/
theorem c2_theorem (nm : Str) (td : TaskData) (dateMinus datePlus : Nat → Str)
    (h : ∀ k ∈ ((alookup _ASANA_TIMEFRAME_COMPLETED td).getD []).map Prod.fst,
          k = _ASANA_TASK_DATE_ALL ∨ startsWithDigit k = true) :
    variableValue
        { name := nm, sensor_type := _ASANA_SENSOR_TYPE_LIST,
          timeframe := _ASANA_TIMEFRAME_NOT_COMPLETED, task_date := DateVal.all }
        td dateMinus datePlus
      = AttrValue.vlist
          ((sortStrs (((alookup _ASANA_TIMEFRAME_NOT_COMPLETED td).getD []).map
              Prod.fst)).flatMap
            (lookupD ((alookup _ASANA_TIMEFRAME_NOT_COMPLETED td).getD [])))
    ∧ variableValue
        { name := nm, sensor_type := _ASANA_SENSOR_TYPE_LIST,
          timeframe := _ASANA_TIMEFRAME_COMPLETED, task_date := DateVal.all }
        td dateMinus datePlus
      = AttrValue.vlist [] := by
  constructor
  · have hful :
        ((sortStrs (((alookup _ASANA_TIMEFRAME_NOT_COMPLETED td).getD []).map
            Prod.fst)).filter
          (fun k => _task_day_matches_timeframe k _ASANA_TIMEFRAME_NOT_COMPLETED
            _ASANA_TASK_DATE_ALL))
        = sortStrs (((alookup _ASANA_TIMEFRAME_NOT_COMPLETED td).getD []).map
            Prod.fst) :=
      List.filter_eq_self.2 fun k _ => match_future_all k
    simp only [variableValue, matchingTasks_eq, eq_self_iff_true, if_true, hful]
  · simp only [variableValue, matchingTasks_eq, eq_self_iff_true, if_true]
    have hfilter :
        ((sortStrs (((alookup _ASANA_TIMEFRAME_COMPLETED td).getD []).map
            Prod.fst)).filter
          (fun k => _task_day_matches_timeframe k _ASANA_TIMEFRAME_COMPLETED
            _ASANA_TASK_DATE_ALL)) = [] := by
      apply List.filter_eq_nil_iff.2
      intro k hks
      have hk := h k ((mem_sortStrs k _).1 hks)
      simp [match_past_all k hk]
    rw [hfilter]
    rfl

/-- C2 (witness): the amended theorem at a concrete bucketed task store whose
past bucket holds a date key and the `"all"` key. -/
theorem c2_witness :
    variableValue
        { name := "rule_all".toList, sensor_type := _ASANA_SENSOR_TYPE_LIST,
          timeframe := _ASANA_TIMEFRAME_NOT_COMPLETED, task_date := DateVal.all }
        [(_ASANA_TIMEFRAME_COMPLETED,
            [("2024-01-01".toList, ["2024-01-01 - a".toList]),
              ("all".toList, ["b".toList])]),
          (_ASANA_TIMEFRAME_NOT_COMPLETED, [("all".toList, ["c".toList])])]
        (fun _ => []) (fun _ => [])
      = AttrValue.vlist
          ((sortStrs (((alookup _ASANA_TIMEFRAME_NOT_COMPLETED
              [(_ASANA_TIMEFRAME_COMPLETED,
                  [("2024-01-01".toList, ["2024-01-01 - a".toList]),
                    ("all".toList, ["b".toList])]),
                (_ASANA_TIMEFRAME_NOT_COMPLETED,
                  [("all".toList, ["c".toList])])]).getD []).map
              Prod.fst)).flatMap
            (lookupD ((alookup _ASANA_TIMEFRAME_NOT_COMPLETED
              [(_ASANA_TIMEFRAME_COMPLETED,
                  [("2024-01-01".toList, ["2024-01-01 - a".toList]),
                    ("all".toList, ["b".toList])]),
                (_ASANA_TIMEFRAME_NOT_COMPLETED,
                  [("all".toList, ["c".toList])])]).getD [])))
    ∧ variableValue
        { name := "rule_all".toList, sensor_type := _ASANA_SENSOR_TYPE_LIST,
          timeframe := _ASANA_TIMEFRAME_COMPLETED, task_date := DateVal.all }
        [(_ASANA_TIMEFRAME_COMPLETED,
            [("2024-01-01".toList, ["2024-01-01 - a".toList]),
              ("all".toList, ["b".toList])]),
          (_ASANA_TIMEFRAME_NOT_COMPLETED, [("all".toList, ["c".toList])])]
        (fun _ => []) (fun _ => [])
      = AttrValue.vlist [] :=
  c2_theorem "rule_all".toList
    [(_ASANA_TIMEFRAME_COMPLETED,
        [("2024-01-01".toList, ["2024-01-01 - a".toList]),
          ("all".toList, ["b".toList])]),
      (_ASANA_TIMEFRAME_NOT_COMPLETED, [("all".toList, ["c".toList])])]
    (fun _ => []) (fun _ => []) (by decide)

/-- C5 (confirmed): the matching-task loop concatenates, over the bucket keys
in ascending lexicographic (sorted string) order, the task lists of exactly the
matching keys; a `past` key matches iff it is not `"all"` and is `>=` the
boundary, and a `future` key matches iff the boundary is `"all"` or the key is
`<=` the boundary. -/
theorem c5_theorem (selected : Bucket) (vdate : Str) :
    (∀ tf, matchingTasks selected tf vdate
        = ((sortStrs (selected.map Prod.fst)).filter
            (fun k => _task_day_matches_timeframe k tf vdate)).flatMap
              (lookupD selected))
    ∧ (∀ k, _task_day_matches_timeframe k _ASANA_TIMEFRAME_COMPLETED vdate = true
        ↔ k ≠ _ASANA_TASK_DATE_ALL ∧ strLe vdate k = true)
    ∧ (∀ k, _task_day_matches_timeframe k _ASANA_TIMEFRAME_NOT_COMPLETED vdate
          = true
        ↔ vdate = _ASANA_TASK_DATE_ALL ∨ strLe k vdate = true) := by
  refine ⟨fun tf => matchingTasks_eq selected tf vdate, fun k => ?_, fun k => ?_⟩
  · simp only [_task_day_matches_timeframe, if_pos rfl]
    by_cases hk : k = _ASANA_TASK_DATE_ALL
    · simp [hk]
    · simp [hk]
  · have h : ¬ (_ASANA_TIMEFRAME_NOT_COMPLETED = _ASANA_TIMEFRAME_COMPLETED) := by
      decide
    simp only [_task_day_matches_timeframe, if_neg h, if_pos rfl]
    by_cases hv : vdate = _ASANA_TASK_DATE_ALL
    · simp [hv]
    · simp [hv]

/-- Projection of an attribute value to its task list. -/
def asList : AttrValue → List Str
  | AttrValue.vlist l => l
  | AttrValue.vcount _ => []

/-- C10 (confirmed): with the same timeframe and horizon, a `counter` rule
evaluates to exactly the length of the list a `list` rule evaluates to over the
same bucketed task data; the counter is a natural number derived from that
same matching-task list. -/
theorem c10_theorem (n1 n2 tf : Str) (hv : DateVal) (td : TaskData)
    (dateMinus datePlus : Nat → Str) :
    ∃ l : List Str,
      variableValue
          { name := n2, sensor_type := _ASANA_SENSOR_TYPE_LIST,
            timeframe := tf, task_date := hv } td dateMinus datePlus
        = AttrValue.vlist l
      ∧ variableValue
          { name := n1, sensor_type := _ASANA_SENSOR_TYPE_COUNTER,
            timeframe := tf, task_date := hv } td dateMinus datePlus
        = AttrValue.vcount l.length := by
  have hne : ¬ (_ASANA_SENSOR_TYPE_COUNTER = _ASANA_SENSOR_TYPE_LIST) := by decide
  refine ⟨asList (variableValue
      { name := n2, sensor_type := _ASANA_SENSOR_TYPE_LIST,
        timeframe := tf, task_date := hv } td dateMinus datePlus), ?_, ?_⟩
  · simp [variableValue, asList]
  · simp [variableValue, asList, hne]

/-! C3, C6, C7, C8. -/

/-- The sensor constructed from an empty monitored-variable list. -/
def sensor0 : Sensor :=
  { state_attribute_name := none, monitored_variables := [], task_data := [],
    attributes := [], state := none }

/-- C3 (counterexample): on the first update cycle with an empty configuration
and a malformed API response (`{}`), the fetch aborts and the attributes remain
their defaults, but the scalar state remains the pre-call default `None`: it is
not the placeholder `"OK"`, because the aborted update returns before
`_update_sensor_state` runs. -/
theorem c3_counterexample :
    init [] = some sensor0
    ∧ update sensor0 (get_api_data [{ data := none, next_page := none }])
        (fun _ => []) (fun _ => []) = sensor0
    ∧ sensor0.state = none
    ∧ (none : Option StateValue) ≠ some StateValue.ok :=
  ⟨rfl, rfl, rfl, by decide⟩

/-- C3 (amended): on the first update cycle, if the fetch receives a malformed
response (`{}`, first page lacking the data field) it aborts and the sensor is
left exactly as constructed: the attributes are the pre-call defaults (`None`
per parsed rule) and the scalar state is still the unset default `None`; the
`"OK"` placeholder would only be assigned by a completed update cycle. -/
theorem c3_theorem (vars : List Str) (s : Sensor) (dateMinus datePlus : Nat → Str)
    (rest : List Resp) (hp : init vars = some s) :
    update s (get_api_data ({ data := none, next_page := none } :: rest))
        dateMinus datePlus = s
    ∧ s.attributes = s.monitored_variables.map (fun p => (p.1, none))
    ∧ s.state = none := by
  have hfetch : get_api_data ({ data := none, next_page := none } :: rest)
      = none := rfl
  rw [hfetch]
  unfold init at hp
  cases hproc : _process_monitored_variables vars with
  | none => rw [hproc] at hp; cases hp
  | some p =>
    rw [hproc] at hp
    cases hp
    exact ⟨rfl, rfl, rfl⟩

/-- The sensor constructed from the single name `counter_past_7day`. -/
def sensor1 : Sensor :=
  { state_attribute_name := some "counter_past_7day".toList
    monitored_variables :=
      [("counter_past_7day".toList,
        { name := "counter_past_7day".toList
          sensor_type := _ASANA_SENSOR_TYPE_COUNTER
          timeframe := _ASANA_TIMEFRAME_COMPLETED
          task_date := DateVal.days 7 })]
    task_data := []
    attributes := [("counter_past_7day".toList, none)]
    state := none }

/-- C3 (witness): the amended theorem at the concrete configuration
`["counter_past_7day"]` with a malformed first response. -/
theorem c3_witness :
    update sensor1 (get_api_data [{ data := none, next_page := none }])
        (fun _ => []) (fun _ => []) = sensor1
    ∧ sensor1.attributes = sensor1.monitored_variables.map (fun p => (p.1, none))
    ∧ sensor1.state = none :=
  c3_theorem ["counter_past_7day".toList] sensor1 (fun _ => []) (fun _ => []) []
    (by decide)

/-- The timeframe, date key, and display string the specification assigns to a
task (phrased from the claim: completed tasks go to `past` keyed by the first
10 characters of the completion timestamp, incomplete ones to `future` keyed by
the date portion of the due date; a falsy — absent or empty — timestamp yields
the `"all"` sentinel and the bare task name as display string). -/
def specRoute (t : Task) : Str × Str × Str :=
  let group := if t.completed then _ASANA_TIMEFRAME_COMPLETED
    else _ASANA_TIMEFRAME_NOT_COMPLETED
  let key :=
    if t.completed then
      if pyTruthy t.completed_at then (t.completed_at.getD []).take 10
      else _ASANA_TASK_DATE_ALL
    else
      if pyTruthy t.due_on then (t.due_on.getD []).take 10
      else _ASANA_TASK_DATE_ALL
  let display :=
    if key = _ASANA_TASK_DATE_ALL then t.name else key ++ " - ".toList ++ t.name
  (group, key, display)

/-- C6 (confirmed): bucketing routes every task exactly as the specification
says: completed tasks into `past` under the first 10 characters of the
completion timestamp (`"all"` when it is absent), other tasks into `future`
under the date portion of the due date (`"all"` when absent), storing
`"<date> - <name>"` for a concrete date key and the bare name under `"all"`. -/
theorem c6_theorem (tasks_data : List Task) :
    _store_task_data tasks_data
      = tasks_data.foldl
          (fun td t => tdAppend td (specRoute t).1 (specRoute t).2.1
            (specRoute t).2.2)
          [(_ASANA_TIMEFRAME_COMPLETED, []), (_ASANA_TIMEFRAME_NOT_COMPLETED, [])] := by
  unfold _store_task_data
  have hstep : storeStep = fun td t =>
      tdAppend td (specRoute t).1 (specRoute t).2.1 (specRoute t).2.2 := by
    funext td t
    by_cases hc : t.completed
    · by_cases htr : pyTruthy t.completed_at = true
      · simp [storeStep, specRoute, hc, htr]
      · simp [storeStep, specRoute, hc, htr]
    · by_cases htr : pyTruthy t.due_on = true
      · simp [storeStep, specRoute, hc, htr]
      · simp [storeStep, specRoute, hc, htr]
  rw [hstep]

/-- C7 (confirmed): when any page the pagination loop reaches is empty or
lacks the data field, the whole fetch returns no data (never the partially
accumulated tasks), and the subsequent update cycle leaves the task buckets,
attribute snapshot, and state exactly as they were. -/
theorem c7_theorem (good : List Resp) (bad : Resp) (rest : List Resp)
    (s : Sensor) (dateMinus datePlus : Nat → Str)
    (hgood : ∀ r ∈ good, r.data.isSome = true ∧ r.next_page.isSome = true)
    (hbad : bad.data = none) :
    get_api_data (good ++ bad :: rest) = none
    ∧ update s (get_api_data (good ++ bad :: rest)) dateMinus datePlus = s := by
  have hf : ∀ (g : List Resp),
      (∀ r ∈ g, r.data.isSome = true ∧ r.next_page.isSome = true) →
      ∀ acc, fetchGo (g ++ bad :: rest) acc = none := by
    intro g
    induction g with
    | nil => intro _ acc; simp [fetchGo, hbad]
    | cons r rs ih =>
      intro hg acc
      obtain ⟨hd, hn⟩ := hg r (List.mem_cons_self r rs)
      obtain ⟨d, hd⟩ := Option.isSome_iff_exists.1 hd
      obtain ⟨u, hn⟩ := Option.isSome_iff_exists.1 hn
      simp only [List.cons_append, fetchGo, hd, hn]
      exact ih (fun q hq => hg q (List.mem_cons_of_mem r hq)) (acc ++ d)
  have h1 : get_api_data (good ++ bad :: rest) = none := hf good hgood []
  refine ⟨h1, ?_⟩
  rw [h1]
  rfl

/-- C7 (witness): a two-page fetch whose second page is malformed returns no
data and leaves a concrete already-populated sensor untouched. -/
theorem c7_witness :
    get_api_data
        ([{ data := some [], next_page := some "u".toList }]
          ++ { data := none, next_page := none } :: [])
      = none
    ∧ update sensor1
        (get_api_data
          ([{ data := some [], next_page := some "u".toList }]
            ++ { data := none, next_page := none } :: []))
        (fun _ => []) (fun _ => [])
      = sensor1 :=
  c7_theorem [{ data := some [], next_page := some "u".toList }]
    { data := none, next_page := none } [] sensor1 (fun _ => []) (fun _ => [])
    (by decide) rfl

/-! C8: the fetch horizon. -/

/-- The day counts of the rules with timeframe `past` and a bounded horizon
(phrased from the claim). -/
def boundedPastDays (m : RuleMap) : List Nat :=
  m.filterMap fun p =>
    if p.2.timeframe = _ASANA_TIMEFRAME_COMPLETED then
      match p.2.task_date with
      | DateVal.all => none
      | DateVal.days d => some d
    else none

lemma foldlMax_ge_init : ∀ (l : List Nat) (a : Nat),
    a ≤ l.foldl (fun acc d => Nat.max d acc) a := by
  intro l
  induction l with
  | nil => intro a; exact Nat.le_refl a
  | cons x xs ih =>
    intro a
    exact le_trans (Nat.le_max_right x a) (ih (Nat.max x a))

lemma foldlMax_ge_mem : ∀ (l : List Nat) (a d : Nat), d ∈ l →
    d ≤ l.foldl (fun acc d => Nat.max d acc) a := by
  intro l
  induction l with
  | nil => intro a d hd; cases hd
  | cons x xs ih =>
    intro a d hd
    rcases List.mem_cons.1 hd with h | h
    · subst h
      exact le_trans (Nat.le_max_left d a) (foldlMax_ge_init xs (Nat.max d a))
    · exact ih (Nat.max x a) d h

lemma foldlMax_mem : ∀ (l : List Nat) (a : Nat),
    l.foldl (fun acc d => Nat.max d acc) a = a
      ∨ l.foldl (fun acc d => Nat.max d acc) a ∈ l := by
  intro l
  induction l with
  | nil => intro a; exact Or.inl rfl
  | cons x xs ih =>
    intro a
    rcases ih (Nat.max x a) with h | h
    · rw [List.foldl_cons, h]
      rcases Nat.le_total x a with hm | hm
      · exact Or.inl (Nat.max_eq_right hm)
      · refine Or.inr ?_
        have hx : Nat.max x a = x := Nat.max_eq_left hm
        rw [hx]
        exact List.mem_cons_self x xs
    · exact Or.inr (List.mem_cons_of_mem x h)

lemma maxSince_eq (m : RuleMap)
    (h : ∀ p ∈ m, p.2.timeframe = _ASANA_TIMEFRAME_COMPLETED
        ∨ p.2.timeframe = _ASANA_TIMEFRAME_NOT_COMPLETED) :
    _get_max_since_days_ago m
      = (boundedPastDays m).foldl (fun acc d => Nat.max d acc) 0 := by
  have hgen : ∀ (l : RuleMap) (a : Nat),
      (∀ p ∈ l, p.2.timeframe = _ASANA_TIMEFRAME_COMPLETED
          ∨ p.2.timeframe = _ASANA_TIMEFRAME_NOT_COMPLETED) →
      l.foldl
          (fun max_days_ago p =>
            if p.2.timeframe = _ASANA_TIMEFRAME_NOT_COMPLETED then max_days_ago
            else
              match p.2.task_date with
              | DateVal.all => max_days_ago
              | DateVal.days days_ago => Nat.max days_ago max_days_ago)
          a
        = (boundedPastDays l).foldl (fun acc d => Nat.max d acc) a := by
    intro l
    induction l with
    | nil => intro a _; rfl
    | cons p rest ih =>
      intro a hl
      have hp := hl p (List.mem_cons_self p rest)
      have hrest := fun q hq => hl q (List.mem_cons_of_mem p hq)
      rcases hp with hp | hp
      · have hne : ¬ (p.2.timeframe = _ASANA_TIMEFRAME_NOT_COMPLETED) := by
          rw [hp]; decide
        cases htd : p.2.task_date with
        | all =>
          simp only [List.foldl_cons, if_neg hne, htd, boundedPastDays,
            List.filterMap_cons, if_pos hp]
          exact ih a hrest
        | days d =>
          simp only [List.foldl_cons, if_neg hne, htd, boundedPastDays,
            List.filterMap_cons, if_pos hp]
          exact ih (Nat.max d a) hrest
      · have heq : p.2.timeframe = _ASANA_TIMEFRAME_NOT_COMPLETED := hp
        have hne : ¬ (p.2.timeframe = _ASANA_TIMEFRAME_COMPLETED) := by
          rw [heq]; decide
        simp only [List.foldl_cons, if_pos heq, boundedPastDays,
          List.filterMap_cons, if_neg hne]
        exact ih a hrest
  exact hgen m 0 h

/-- C8 (confirmed): for every parsed rule set (each rule's timeframe is `past`
or `future`), the fetch horizon is the maximum day-count among rules with
timeframe `past` and a bounded (non-`"all"`) horizon, and it is 0 when no such
rule exists. -/
theorem c8_theorem (m : RuleMap)
    (h : ∀ p ∈ m, p.2.timeframe = _ASANA_TIMEFRAME_COMPLETED
        ∨ p.2.timeframe = _ASANA_TIMEFRAME_NOT_COMPLETED) :
    (∀ d ∈ boundedPastDays m, d ≤ _get_max_since_days_ago m)
    ∧ (boundedPastDays m = [] → _get_max_since_days_ago m = 0)
    ∧ (boundedPastDays m ≠ [] → _get_max_since_days_ago m ∈ boundedPastDays m) := by
  rw [maxSince_eq m h]
  refine ⟨fun d hd => foldlMax_ge_mem _ 0 d hd, fun he => by rw [he]; rfl, fun hne => ?_⟩
  rcases foldlMax_mem (boundedPastDays m) 0 with h0 | hmem
  · rw [h0]
    cases hl : boundedPastDays m with
    | nil => exact absurd hl hne
    | cons x xs =>
      have hx : x ≤ 0 := by
        have := foldlMax_ge_mem (boundedPastDays m) 0 x
          (by rw [hl]; exact List.mem_cons_self x xs)
        rw [h0] at this
        exact this
      have : x = 0 := Nat.le_antisymm hx (Nat.zero_le x)
      rw [← this]
      exact List.mem_cons_self x xs
  · exact hmem

/-- C8 (witness): the theorem at a concrete rule map with one bounded past
rule (7 days), one `all` past rule, and one future rule. -/
theorem c8_witness :
    (∀ d ∈ boundedPastDays
        [("counter_past_7day".toList,
            { name := "counter_past_7day".toList,
              sensor_type := _ASANA_SENSOR_TYPE_COUNTER,
              timeframe := _ASANA_TIMEFRAME_COMPLETED, task_date := DateVal.days 7 }),
          ("list_past_all".toList,
            { name := "list_past_all".toList,
              sensor_type := _ASANA_SENSOR_TYPE_LIST,
              timeframe := _ASANA_TIMEFRAME_COMPLETED, task_date := DateVal.all }),
          ("list_future_30day".toList,
            { name := "list_future_30day".toList,
              sensor_type := _ASANA_SENSOR_TYPE_LIST,
              timeframe := _ASANA_TIMEFRAME_NOT_COMPLETED,
              task_date := DateVal.days 30 })],
        d ≤ _get_max_since_days_ago
          [("counter_past_7day".toList,
              { name := "counter_past_7day".toList,
                sensor_type := _ASANA_SENSOR_TYPE_COUNTER,
                timeframe := _ASANA_TIMEFRAME_COMPLETED, task_date := DateVal.days 7 }),
            ("list_past_all".toList,
              { name := "list_past_all".toList,
                sensor_type := _ASANA_SENSOR_TYPE_LIST,
                timeframe := _ASANA_TIMEFRAME_COMPLETED, task_date := DateVal.all }),
            ("list_future_30day".toList,
              { name := "list_future_30day".toList,
                sensor_type := _ASANA_SENSOR_TYPE_LIST,
                timeframe := _ASANA_TIMEFRAME_NOT_COMPLETED,
                task_date := DateVal.days 30 })])
    ∧ (boundedPastDays
        [("counter_past_7day".toList,
            { name := "counter_past_7day".toList,
              sensor_type := _ASANA_SENSOR_TYPE_COUNTER,
              timeframe := _ASANA_TIMEFRAME_COMPLETED, task_date := DateVal.days 7 }),
          ("list_past_all".toList,
            { name := "list_past_all".toList,
              sensor_type := _ASANA_SENSOR_TYPE_LIST,
              timeframe := _ASANA_TIMEFRAME_COMPLETED, task_date := DateVal.all }),
          ("list_future_30day".toList,
            { name := "list_future_30day".toList,
              sensor_type := _ASANA_SENSOR_TYPE_LIST,
              timeframe := _ASANA_TIMEFRAME_NOT_COMPLETED,
              task_date := DateVal.days 30 })] = []
        → _get_max_since_days_ago
          [("counter_past_7day".toList,
              { name := "counter_past_7day".toList,
                sensor_type := _ASANA_SENSOR_TYPE_COUNTER,
                timeframe := _ASANA_TIMEFRAME_COMPLETED, task_date := DateVal.days 7 }),
            ("list_past_all".toList,
              { name := "list_past_all".toList,
                sensor_type := _ASANA_SENSOR_TYPE_LIST,
                timeframe := _ASANA_TIMEFRAME_COMPLETED, task_date := DateVal.all }),
            ("list_future_30day".toList,
              { name := "list_future_30day".toList,
                sensor_type := _ASANA_SENSOR_TYPE_LIST,
                timeframe := _ASANA_TIMEFRAME_NOT_COMPLETED,
                task_date := DateVal.days 30 })] = 0)
    ∧ (boundedPastDays
        [("counter_past_7day".toList,
            { name := "counter_past_7day".toList,
              sensor_type := _ASANA_SENSOR_TYPE_COUNTER,
              timeframe := _ASANA_TIMEFRAME_COMPLETED, task_date := DateVal.days 7 }),
          ("list_past_all".toList,
            { name := "list_past_all".toList,
              sensor_type := _ASANA_SENSOR_TYPE_LIST,
              timeframe := _ASANA_TIMEFRAME_COMPLETED, task_date := DateVal.all }),
          ("list_future_30day".toList,
            { name := "list_future_30day".toList,
              sensor_type := _ASANA_SENSOR_TYPE_LIST,
              timeframe := _ASANA_TIMEFRAME_NOT_COMPLETED,
              task_date := DateVal.days 30 })] ≠ []
        → _get_max_since_days_ago
          [("counter_past_7day".toList,
              { name := "counter_past_7day".toList,
                sensor_type := _ASANA_SENSOR_TYPE_COUNTER,
                timeframe := _ASANA_TIMEFRAME_COMPLETED, task_date := DateVal.days 7 }),
            ("list_past_all".toList,
              { name := "list_past_all".toList,
                sensor_type := _ASANA_SENSOR_TYPE_LIST,
                timeframe := _ASANA_TIMEFRAME_COMPLETED, task_date := DateVal.all }),
            ("list_future_30day".toList,
              { name := "list_future_30day".toList,
                sensor_type := _ASANA_SENSOR_TYPE_LIST,
                timeframe := _ASANA_TIMEFRAME_NOT_COMPLETED,
                task_date := DateVal.days 30 })]
          ∈ boundedPastDays
            [("counter_past_7day".toList,
                { name := "counter_past_7day".toList,
                  sensor_type := _ASANA_SENSOR_TYPE_COUNTER,
                  timeframe := _ASANA_TIMEFRAME_COMPLETED, task_date := DateVal.days 7 }),
              ("list_past_all".toList,
                { name := "list_past_all".toList,
                  sensor_type := _ASANA_SENSOR_TYPE_LIST,
                  timeframe := _ASANA_TIMEFRAME_COMPLETED, task_date := DateVal.all }),
              ("list_future_30day".toList,
                { name := "list_future_30day".toList,
                  sensor_type := _ASANA_SENSOR_TYPE_LIST,
                  timeframe := _ASANA_TIMEFRAME_NOT_COMPLETED,
                  task_date := DateVal.days 30 })]) :=
  c8_theorem _ (by decide)

/-! C4: parsing of well-formed names. -/

lemma splitOnChar_not_mem (sep : Char) (s : Str) (h : sep ∉ s) :
    splitOnChar sep s = [s] := by
  induction s with
  | nil => rfl
  | cons c cs ih =>
    have hc : ¬ (c = sep) := fun he => h (he ▸ List.mem_cons_self c cs)
    have hcs : sep ∉ cs := fun hm => h (List.mem_cons_of_mem c hm)
    simp only [splitOnChar, if_neg hc, ih hcs]

lemma splitOnChar_append (sep : Char) (xs rest : Str) (h : sep ∉ xs) :
    splitOnChar sep (xs ++ sep :: rest) = xs :: splitOnChar sep rest := by
  induction xs with
  | nil => simp [splitOnChar]
  | cons c cs ih =>
    have hc : ¬ (c = sep) := fun he => h (he ▸ List.mem_cons_self c cs)
    have hcs : sep ∉ cs := fun hm => h (List.mem_cons_of_mem c hm)
    simp only [List.cons_append, splitOnChar, if_neg hc, List.append_eq]
    rw [ih hcs]

/-- The horizon the claim assigns to a lower-cased name: `"all"` when the name
contains `all` (the all-check takes precedence over the day pattern), else the
day count parsed by the `_<digits>day` pattern. -/
def horizonOf (v : Str) : DateVal :=
  if strContains v _ASANA_TASK_DATE_ALL then DateVal.all
  else DateVal.days ((searchDayPattern v).getD 0)

lemma getDays_eq (v : Str)
    (h : strContains v _ASANA_TASK_DATE_ALL = true
        ∨ (searchDayPattern v).isSome = true) :
    _get_days_from_monitored_variable v = some (horizonOf v) := by
  by_cases hall : strContains v _ASANA_TASK_DATE_ALL = true
  · simp [_get_days_from_monitored_variable, horizonOf, hall]
  · rcases h with h | h
    · exact absurd h hall
    · obtain ⟨n, hn⟩ := Option.isSome_iff_exists.1 h
      simp [_get_days_from_monitored_variable, horizonOf, hall, hn]

/-- C4 (confirmed): every configuration name whose lower-casing decomposes as
`<kind>_<timeframe>_<horizon>` with recognised kind and timeframe, and which
contains `all` or matches the `_<digits>day` pattern, parses to exactly one
rule keyed by the lower-cased name, carrying that kind and timeframe, with
horizon `"all"` when the name contains `all` (the all-check takes precedence)
and otherwise the parsed integer day count. -/
theorem c4_theorem (n kindS tfS hz : Str)
    (hk : kindS = _ASANA_SENSOR_TYPE_COUNTER ∨ kindS = _ASANA_SENSOR_TYPE_LIST)
    (htf : tfS = _ASANA_TIMEFRAME_COMPLETED ∨ tfS = _ASANA_TIMEFRAME_NOT_COMPLETED)
    (hdec : n.map Char.toLower = kindS ++ '_' :: (tfS ++ '_' :: hz))
    (hno : '_' ∉ hz)
    (hday : strContains (n.map Char.toLower) _ASANA_TASK_DATE_ALL = true
        ∨ (searchDayPattern (n.map Char.toLower)).isSome = true) :
    _process_monitored_variables [n]
      = some ([(n.map Char.toLower,
          { name := n.map Char.toLower, sensor_type := kindS, timeframe := tfS,
            task_date := horizonOf (n.map Char.toLower) })],
          some (n.map Char.toLower)) := by
  have hkno : '_' ∉ kindS := by rcases hk with h | h <;> subst h <;> decide
  have htfno : '_' ∉ tfS := by rcases htf with h | h <;> subst h <;> decide
  have hsplit : splitOnChar '_' (n.map Char.toLower) = [kindS, tfS, hz] := by
    rw [hdec, splitOnChar_append _ _ _ hkno, splitOnChar_append _ _ _ htfno,
      splitOnChar_not_mem _ _ hno]
  have hdays := getDays_eq (n.map Char.toLower) hday
  have hkmem : kindS ∈ _ASANA_SENSOR_TASK_TYPES := by
    rcases hk with h | h <;> subst h <;> decide
  have htfmem : tfS ∈ _ASANA_TIMEFRAMES := by
    rcases htf with h | h <;> subst h <;> decide
  show processVarsGo [n] [] none = _
  simp only [processVarsGo, hsplit, hdays, if_pos hkmem, if_pos htfmem]
  rfl

/-- C4 (witness): the theorem at the mixed-case name `Counter_Past_7day` and
at `counter_past_allday123`, where the all-check overrides the day pattern. -/
theorem c4_witness :
    _process_monitored_variables ["Counter_Past_7day".toList]
      = some ([("Counter_Past_7day".toList.map Char.toLower,
          { name := "Counter_Past_7day".toList.map Char.toLower,
            sensor_type := _ASANA_SENSOR_TYPE_COUNTER,
            timeframe := _ASANA_TIMEFRAME_COMPLETED,
            task_date := horizonOf ("Counter_Past_7day".toList.map Char.toLower) })],
          some ("Counter_Past_7day".toList.map Char.toLower))
    ∧ _process_monitored_variables ["counter_past_allday123".toList]
      = some ([("counter_past_allday123".toList.map Char.toLower,
          { name := "counter_past_allday123".toList.map Char.toLower,
            sensor_type := _ASANA_SENSOR_TYPE_COUNTER,
            timeframe := _ASANA_TIMEFRAME_COMPLETED,
            task_date :=
              horizonOf ("counter_past_allday123".toList.map Char.toLower) })],
          some ("counter_past_allday123".toList.map Char.toLower)) :=
  ⟨ c4_theorem "Counter_Past_7day".toList _ _ "7day".toList (Or.inl rfl)
      (Or.inl rfl) (by decide) (by decide) (by decide),
    c4_theorem "counter_past_allday123".toList _ _ "allday123".toList (Or.inl rfl)
      (Or.inl rfl) (by decide) (by decide) (by decide)⟩

/-! C9: the state-attribute name and duplicate handling. -/

lemma processVarsGo_append (xs ys : List Str) :
    ∀ (m : RuleMap) (a : Option Str),
      processVarsGo (xs ++ ys) m a
        = (processVarsGo xs m a).bind fun p => processVarsGo ys p.1 p.2 := by
  induction xs with
  | nil => intro m a; rfl
  | cons v rest ih =>
    intro m a
    rcases e : splitOnChar '_' (v.map Char.toLower) with _ | ⟨x, _ | ⟨y, _ | ⟨z, _ | ⟨w, l5⟩⟩⟩⟩
    · simp only [List.cons_append, processVarsGo, e]; rfl
    · simp only [List.cons_append, processVarsGo, e]; rfl
    · simp only [List.cons_append, processVarsGo, e]; rfl
    case cons.cons.cons.nil =>
      simp only [List.cons_append, processVarsGo, e]
      cases hd : _get_days_from_monitored_variable (v.map Char.toLower) with
      | none => exact ih m a
      | some d =>
        by_cases ht : x ∈ _ASANA_SENSOR_TASK_TYPES
        · by_cases htf : y ∈ _ASANA_TIMEFRAMES
          · simp only [if_pos ht, if_pos htf]
            exact ih _ _
          · simp only [if_pos ht, if_neg htf]
            exact ih m a
        · simp only [if_neg ht]
          exact ih m a
    case cons.cons.cons.cons =>
      simp only [List.cons_append, processVarsGo, e]; rfl

lemma processVarsGo_attr_some (vars : List Str) :
    ∀ (m m2 : RuleMap) (x : Str) (a2 : Option Str),
      processVarsGo vars m (some x) = some (m2, a2) → a2 = some x := by
  induction vars with
  | nil => intro m m2 x a2 h; cases h; rfl
  | cons v rest ih =>
    intro m m2 x a2 h
    rcases e : splitOnChar '_' (v.map Char.toLower) with _ | ⟨t, _ | ⟨tf, _ | ⟨r, _ | ⟨w, l5⟩⟩⟩⟩ <;>
      simp only [processVarsGo, e] at h
    · cases h
    · cases h
    · cases h
    case cons.cons.cons.nil =>
      cases hd : _get_days_from_monitored_variable (v.map Char.toLower) with
      | none => simp only [hd] at h; exact ih _ _ _ _ h
      | some d =>
        simp only [hd] at h
        by_cases ht : t ∈ _ASANA_SENSOR_TASK_TYPES
        · by_cases htf : tf ∈ _ASANA_TIMEFRAMES
          · rw [if_pos ht, if_pos htf] at h
            exact ih _ _ _ _ h
          · rw [if_pos ht, if_neg htf] at h
            exact ih _ _ _ _ h
        · rw [if_neg ht] at h
          exact ih _ _ _ _ h
    case cons.cons.cons.cons => cases h

lemma processVarsGo_attr_none (vars : List Str) :
    ∀ (m m2 : RuleMap) (a2 : Option Str),
      processVarsGo vars m none = some (m2, a2) →
      a2 = (vars.map fun v => v.map Char.toLower).find? acceptVar := by
  induction vars with
  | nil => intro m m2 a2 h; cases h; rfl
  | cons v rest ih =>
    intro m m2 a2 h
    rcases e : splitOnChar '_' (v.map Char.toLower) with _ | ⟨t, _ | ⟨tf, _ | ⟨r, _ | ⟨w, l5⟩⟩⟩⟩ <;>
      simp only [processVarsGo, e] at h
    · cases h
    · cases h
    · cases h
    case cons.cons.cons.nil =>
      cases hd : _get_days_from_monitored_variable (v.map Char.toLower) with
      | none =>
        simp only [hd] at h
        have hacc : ¬ acceptVar (v.map Char.toLower) = true := by
          simp [acceptVar, e, hd]
        simp only [List.map_cons, List.find?_cons_of_neg _ hacc]
        exact ih _ _ _ h
      | some d =>
        simp only [hd] at h
        by_cases ht : t ∈ _ASANA_SENSOR_TASK_TYPES
        · by_cases htf : tf ∈ _ASANA_TIMEFRAMES
          · rw [if_pos ht, if_pos htf] at h
            have hacc : acceptVar (v.map Char.toLower) = true := by
              simp [acceptVar, e, hd, ht, htf]
            simp only [List.map_cons, List.find?_cons_of_pos _ hacc]
            exact processVarsGo_attr_some rest _ _ _ _ h
          · rw [if_pos ht, if_neg htf] at h
            have hacc : ¬ acceptVar (v.map Char.toLower) = true := by
              simp [acceptVar, e, hd, htf]
            simp only [List.map_cons, List.find?_cons_of_neg _ hacc]
            exact ih _ _ _ h
        · rw [if_neg ht] at h
          have hacc : ¬ acceptVar (v.map Char.toLower) = true := by
            simp [acceptVar, e, hd, ht]
          simp only [List.map_cons, List.find?_cons_of_neg _ hacc]
          exact ih _ _ _ h
    case cons.cons.cons.cons => cases h

lemma processVarsGo_none_map (vars : List Str) :
    ∀ (m m2 : RuleMap),
      processVarsGo vars m none = some (m2, none) → m2 = m := by
  induction vars with
  | nil => intro m m2 h; cases h; rfl
  | cons v rest ih =>
    intro m m2 h
    rcases e : splitOnChar '_' (v.map Char.toLower) with _ | ⟨t, _ | ⟨tf, _ | ⟨r, _ | ⟨w, l5⟩⟩⟩⟩ <;>
      simp only [processVarsGo, e] at h
    · cases h
    · cases h
    · cases h
    case cons.cons.cons.nil =>
      cases hd : _get_days_from_monitored_variable (v.map Char.toLower) with
      | none => simp only [hd] at h; exact ih _ _ h
      | some d =>
        simp only [hd] at h
        by_cases ht : t ∈ _ASANA_SENSOR_TASK_TYPES
        · by_cases htf : tf ∈ _ASANA_TIMEFRAMES
          · rw [if_pos ht, if_pos htf] at h
            cases processVarsGo_attr_some rest _ _ _ _ h
          · rw [if_pos ht, if_neg htf] at h
            exact ih _ _ h
        · rw [if_neg ht] at h
          exact ih _ _ h
    case cons.cons.cons.cons => cases h

lemma processVarsGo_single_accept (m : RuleMap) (x w : Str)
    (hacc : acceptVar (w.map Char.toLower) = true) :
    processVarsGo [w] m (some x)
      = some (dictInsert m (w.map Char.toLower) (ruleFor (w.map Char.toLower)),
          some x) := by
  rcases e : splitOnChar '_' (w.map Char.toLower) with _ | ⟨t, _ | ⟨tf, _ | ⟨r, _ | ⟨q, l5⟩⟩⟩⟩ <;>
    simp only [acceptVar, e] at hacc
  case nil => exact Bool.noConfusion hacc
  case cons.nil => exact Bool.noConfusion hacc
  case cons.cons.nil => exact Bool.noConfusion hacc
  case cons.cons.cons.cons => exact Bool.noConfusion hacc
  case cons.cons.cons.nil =>
    simp only [Bool.and_eq_true, decide_eq_true_eq, Option.isSome_iff_exists] at hacc
    obtain ⟨⟨⟨d, hd⟩, ht⟩, htf⟩ := hacc
    have hrule : ruleFor (w.map Char.toLower)
        = { name := w.map Char.toLower, sensor_type := t, timeframe := tf,
            task_date := d } := by
      simp [ruleFor, e, hd]
    simp only [processVarsGo, e, hd]
    rw [if_pos ht, if_pos htf, hrule]

lemma dictInsert_keys {β : Type} (m : List (Str × β)) (k : Str) (v : β)
    (h : containsKey m k = true) :
    (dictInsert m k v).map Prod.fst = m.map Prod.fst := by
  induction m with
  | nil => simp [containsKey, alookup] at h
  | cons p rest ih =>
    rcases p with ⟨k0, v0⟩
    by_cases hk : k0 = k
    · subst hk
      simp [dictInsert]
    · have h2 : containsKey rest k = true := by
        simp only [containsKey, alookup, if_neg hk] at h
        exact h
      simp only [dictInsert, if_neg hk, List.map_cons, ih h2]

/-- C9 (confirmed): the designated state-attribute name is the (lower-cased)
name of the first successfully accepted rule in original list order, and
appending a later duplicate of an already accepted name overwrites the earlier
rule entry in place (map semantics, key set unchanged) without changing the
already-selected state-attribute name. -/
theorem c9_theorem (vars : List Str) (m : RuleMap) (attr : Option Str)
    (hp : _process_monitored_variables vars = some (m, attr)) :
    attr = (vars.map fun v => v.map Char.toLower).find? acceptVar
    ∧ ∀ w : Str, acceptVar (w.map Char.toLower) = true →
        containsKey m (w.map Char.toLower) = true →
        _process_monitored_variables (vars ++ [w])
          = some (dictInsert m (w.map Char.toLower)
              (ruleFor (w.map Char.toLower)), attr)
        ∧ (dictInsert m (w.map Char.toLower)
            (ruleFor (w.map Char.toLower))).map Prod.fst = m.map Prod.fst := by
  refine ⟨processVarsGo_attr_none vars [] m attr hp, fun w hacc hkey => ?_⟩
  have hattr_ne : attr ≠ none := by
    intro h0
    subst h0
    have hm := processVarsGo_none_map vars [] m hp
    rw [hm] at hkey
    simp [containsKey, alookup] at hkey
  obtain ⟨x, hx⟩ := Option.ne_none_iff_exists'.1 hattr_ne
  subst hx
  refine ⟨?_, dictInsert_keys m _ _ hkey⟩
  show processVarsGo (vars ++ [w]) [] none = _
  rw [processVarsGo_append vars [w] [] none,
    show processVarsGo vars [] none = some (m, some x) from hp, Option.some_bind]
  exact processVarsGo_single_accept m x w hacc

/-- C9 (witness): with the configuration `["counter_past_7day"]` the state
attribute is `counter_past_7day`, and appending the case-variant duplicate
`Counter_Past_7day` overwrites that entry without changing the key set or the
state attribute. -/
theorem c9_witness :
    (some "counter_past_7day".toList
        = ((["counter_past_7day".toList].map fun v => v.map Char.toLower).find?
            acceptVar))
    ∧ (_process_monitored_variables
          (["counter_past_7day".toList] ++ ["Counter_Past_7day".toList])
        = some (dictInsert
            [("counter_past_7day".toList,
              { name := "counter_past_7day".toList,
                sensor_type := _ASANA_SENSOR_TYPE_COUNTER,
                timeframe := _ASANA_TIMEFRAME_COMPLETED,
                task_date := DateVal.days 7 })]
            ("Counter_Past_7day".toList.map Char.toLower)
            (ruleFor ("Counter_Past_7day".toList.map Char.toLower)),
            some "counter_past_7day".toList)
        ∧ (dictInsert
            [("counter_past_7day".toList,
              { name := "counter_past_7day".toList,
                sensor_type := _ASANA_SENSOR_TYPE_COUNTER,
                timeframe := _ASANA_TIMEFRAME_COMPLETED,
                task_date := DateVal.days 7 })]
            ("Counter_Past_7day".toList.map Char.toLower)
            (ruleFor ("Counter_Past_7day".toList.map Char.toLower))).map Prod.fst
          = ([("counter_past_7day".toList,
              { name := "counter_past_7day".toList,
                sensor_type := _ASANA_SENSOR_TYPE_COUNTER,
                timeframe := _ASANA_TIMEFRAME_COMPLETED,
                task_date := DateVal.days 7 })] : RuleMap).map Prod.fst) :=
  ⟨( c9_theorem ["counter_past_7day".toList]
      [("counter_past_7day".toList,
        { name := "counter_past_7day".toList,
          sensor_type := _ASANA_SENSOR_TYPE_COUNTER,
          timeframe := _ASANA_TIMEFRAME_COMPLETED,
          task_date := DateVal.days 7 })]
      (some "counter_past_7day".toList) (by decide)).1,
    ( c9_theorem ["counter_past_7day".toList]
      [("counter_past_7day".toList,
        { name := "counter_past_7day".toList,
          sensor_type := _ASANA_SENSOR_TYPE_COUNTER,
          timeframe := _ASANA_TIMEFRAME_COMPLETED,
          task_date := DateVal.days 7 })]
      (some "counter_past_7day".toList) (by decide)).2
      "Counter_Past_7day".toList (by decide) (by decide)⟩

end Asana
